import Mathlib

/-!
Shallow embedding of `tfmf` (`src/tfmf/mf.py`), a TensorFlow-1 matrix
factorizer.  Tensor arithmetic (float32) is idealized as real arithmetic;
the TensorFlow library surface the code uses (seeded normal initializer,
Adam/Ftrl optimizer updates) is abstracted as an environment of
deterministic functions, and `np.random` is modelled by a seeded
deterministic generator whose draws lie in the requested range.
-/

namespace Tfmf

/-- Model of `tf.clip_by_value(values, 0, 1)` (mf.py line 175):
`min (max v 0) 1`. -/
noncomputable def clip01 (v : ℝ) : ℝ := min (max v 0) 1

/-- Training target (mf.py lines 173-182): the clipped value when
`implicit`, the raw value otherwise. -/
noncomputable def targetOf (implicit : Bool) (v : ℝ) : ℝ :=
  if implicit then clip01 v else v

/-- Per-entry confidence weight (mf.py lines 177-183).  `log_weights` is
kept as an optional boolean because the Python attribute can stay `None`,
which is falsy in the `if self.log_weights:` test. -/
noncomputable def dataWeight (implicit : Bool) (log_weights : Option Bool)
    (alpha v : ℝ) : ℝ :=
  if implicit then
    if log_weights.getD false then 1 + alpha * Real.log (1 + v)
    else 1 + alpha * v
  else 1

/-- The constructor's resolution of the `log_weights` default
(mf.py lines 325-328): `None` becomes `True` when `implicit`, otherwise the
argument is stored unchanged. -/
def resolveLogWeights (implicit : Bool) (log_weights : Option Bool) : Option Bool :=
  if implicit && log_weights.isNone then some true else log_weights

/-- `tf.sigmoid` idealized over the reals. -/
noncomputable def sigmoid (x : ℝ) : ℝ := 1 / (1 + Real.exp (-x))

/-- The TensorFlow variables of `MatrixFactorizer.TFModel` (mf.py lines
185-204): global bias `mu`, bias vectors `bi`, `bj`, and the latent
matrices `P` (row_weights) and `Q` (col_weights).  The value maps are total
over `ℕ`; the fixed tensor shape `(n, k, d)` is carried separately by
`TFModel` and every operation guards its indices against it. -/
structure Params where
  global_bias : ℝ
  row_biases : ℕ → ℝ
  col_biases : ℕ → ℝ
  row_weights : ℕ → ℕ → ℝ
  col_weights : ℕ → ℕ → ℝ

/-- `P[i,:] · Q[j,:]` (mf.py line 216). -/
noncomputable def dotPQ (d : ℕ) (p : Params) (i j : ℕ) : ℝ :=
  ∑ t in Finset.range d, p.row_weights i t * p.col_weights j t

/-- The linear predictor (mf.py lines 206-223): dot product of the looked-up
latent rows, plus `mu + (bi + bj)` when intercepts are fitted. -/
noncomputable def linearPredictor (fit_intercepts : Bool) (d : ℕ)
    (p : Params) (i j : ℕ) : ℝ :=
  if fit_intercepts then
    (p.global_bias + (p.row_biases i + p.col_biases j)) + dotPQ d p i j
  else dotPQ d p i j

/-- One prediction (mf.py lines 225-228): the sigmoid of the linear
predictor when `loss == 'logistic'`, the linear predictor itself otherwise. -/
noncomputable def predOne (loss : String) (fit_intercepts : Bool) (d : ℕ)
    (p : Params) (i j : ℕ) : ℝ :=
  if loss = "logistic" then sigmoid (linearPredictor fit_intercepts d p i j)
  else linearPredictor fit_intercepts d p i j

/-- `TFModel.predict` (mf.py lines 277-282) on a batch of co-indexed row and
column indices.  `tf.nn.embedding_lookup` fails on an out-of-range index and
the elementwise ops fail on mismatched lengths; both error paths are
modelled by `none`. -/
noncomputable def predictBatch (loss : String) (fit_intercepts : Bool)
    (n k d : ℕ) (p : Params) (rows cols : List ℕ) : Option (List ℝ) :=
  if rows.length = cols.length ∧ (∀ r ∈ rows, r < n) ∧ (∀ c ∈ cols, c < k) then
    some (List.zipWith (predOne loss fit_intercepts d p) rows cols)
  else none

/-- One step of the deterministic generator modelling `np.random`'s stream
(a classic linear congruential step standing in for the Mersenne twister,
which is not reasonably transcribable; what the claims use is that the
stream is a deterministic function of the seed). -/
def lcg (s : ℕ) : ℕ := (1103515245 * s + 12345) % 4294967296

/-- One draw of `np.random.randint(bound)`: a value in `[0, bound)` for
`bound > 0`, together with the advanced generator state. -/
def randint (bound s : ℕ) : ℕ × ℕ :=
  ((lcg s) % bound, lcg s)

/-- `np.random.randint(bound, size=size)` (mf.py lines 360-361): `size`
draws in `[0, bound)`, threading the generator state. -/
def randints (bound : ℕ) : ℕ → ℕ → List ℕ × ℕ
  | 0, s => ([], s)
  | size + 1, s =>
    let v := randint bound s
    let rest := randints bound size v.2
    (v.1 :: rest.1, rest.2)

/-- The sparse input collaborator (spec section 6): a shape plus a total
entry map; entries absent from the stored triples read as `0`
(see `sparse_matrix`). -/
structure SparseMatrix where
  nrows : ℕ
  ncols : ℕ
  entry : ℕ → ℕ → ℝ

/-- The package's `sparse_matrix` builder modelled from its contract
(spec section 6): COO triples with duplicate entries summed, absent
entries `0`. -/
noncomputable def sparse_matrix (nrows ncols : ℕ)
    (triples : List (ℕ × ℕ × ℝ)) : SparseMatrix :=
  { nrows := nrows, ncols := ncols,
    entry := fun i j =>
      (((triples.filter (fun t => t.1 = i ∧ t.2.1 = j)).map
        (fun t => t.2.2)).sum) }

/-- Fancy 2-D indexing `data[rows, cols].A.flatten()` (mf.py line 364):
scipy raises `IndexError` on an out-of-range index, modelled by `none`. -/
noncomputable def SparseMatrix.lookupMany (m : SparseMatrix)
    (rows cols : List ℕ) : Option (List ℝ) :=
  if (∀ r ∈ rows, r < m.nrows) ∧ (∀ c ∈ cols, c < m.ncols) then
    some (List.zipWith m.entry rows cols)
  else none

/-- `MatrixFactorizer._get_batch` (mf.py lines 357-366): draw `batch_size`
row indices bounded by the estimator's stored `shape[0]` and `batch_size`
column indices bounded by the stored `shape[1]`, then look the sampled
cells up in the matrix argument. -/
noncomputable def getBatch (shape : ℕ × ℕ) (batch_size : ℕ)
    (m : SparseMatrix) (s : ℕ) : Option (List ℕ × List ℕ × List ℝ) × ℕ :=
  let br := randints shape.1 batch_size s
  let bc := randints shape.2 batch_size br.2
  match m.lookupMany br.1 bc.1 with
  | some vals => (some (br.1, bc.1, vals), bc.2)
  | none => (none, bc.2)

/-- Count of entries with a nonzero weight: `tf.losses`' default
`SUM_BY_NONZERO_WEIGHTS` reduction divides by this. -/
noncomputable def numPresent (ws : List ℝ) : ℕ :=
  (ws.filter (fun w => w ≠ 0)).length

/-- `tf.losses.mean_squared_error(labels, predictions, weights)` idealized:
the weighted sum of squared errors divided by the number of
nonzero-weighted entries. -/
noncomputable def weightedMeanSq (preds targets ws : List ℝ) : ℝ :=
  if numPresent ws = 0 then 0
  else ((List.zipWith (fun pt w => w * pt)
          (List.zipWith (fun p t => (p - t) ^ 2) preds targets) ws).sum)
        / (numPresent ws : ℝ)

/-- Binary cross-entropy of one prediction against one target (the body of
`tf.losses.log_loss`, with its float epsilon idealized away). -/
noncomputable def bce (p t : ℝ) : ℝ :=
  -(t * Real.log p) - (1 - t) * Real.log (1 - p)

/-- `tf.losses.log_loss(labels, predictions, weights)` idealized, with the
same `SUM_BY_NONZERO_WEIGHTS` reduction as the squared loss. -/
noncomputable def weightedLogLoss (preds targets ws : List ℝ) : ℝ :=
  if numPresent ws = 0 then 0
  else ((List.zipWith (fun b w => w * b)
          (List.zipWith bce preds targets) ws).sum)
        / (numPresent ws : ℝ)

/-- The data-loss dispatch (mf.py lines 244-249): log loss when
`loss == 'logistic'`, mean squared error for every other string. -/
noncomputable def dataLoss (loss : String) (preds targets ws : List ℝ) : ℝ :=
  if loss = "logistic" then weightedLogLoss preds targets ws
  else weightedMeanSq preds targets ws

/-- `tf.nn.l2_loss(t)`: half the sum of squares of the entries of a
matrix-shaped variable. -/
noncomputable def halfSumSqMat (rows cols : ℕ) (f : ℕ → ℕ → ℝ) : ℝ :=
  (∑ i in Finset.range rows, ∑ t in Finset.range cols, f i t ^ 2) / 2

/-- `tf.nn.l2_loss` of a batch lookup of a bias vector: half the sum of the
squared looked-up entries, with multiplicity. -/
noncomputable def halfSumSqLookup (b : ℕ → ℝ) (idx : List ℕ) : ℝ :=
  ((idx.map (fun i => b i ^ 2)).sum) / 2

/-- The regularization term (mf.py lines 230-242):
`regularization_rate * (l2_loss(P) + l2_loss(Q) + l2_loss(bi_batch) +
l2_loss(bj_batch))`, the bias part only when intercepts are fitted.  Note
that the bias part ranges over the *batch lookups* of the bias vectors and
that `tf.nn.l2_loss` halves each sum of squares. -/
noncomputable def l2Term (rate : ℝ) (fit_intercepts : Bool) (n k d : ℕ)
    (p : Params) (rows cols : List ℕ) : ℝ :=
  rate *
    (if fit_intercepts then
      (halfSumSqMat n d p.row_weights + halfSumSqMat k d p.col_weights) +
        (halfSumSqLookup p.row_biases rows + halfSumSqLookup p.col_biases cols)
    else
      halfSumSqMat n d p.row_weights + halfSumSqMat k d p.col_weights)

/-- The L2 term as the claim's words state it: the rate times the plain
(unhalved) sum of squares of all entries of the latent matrices, plus the
squares of the bias parameters when intercepts are fitted.  Kept for
comparison with `l2Term`, which follows the code. -/
noncomputable def l2TermClaimed (rate : ℝ) (fit_intercepts : Bool)
    (n k d : ℕ) (p : Params) : ℝ :=
  rate *
    ((∑ i in Finset.range n, ∑ t in Finset.range d, p.row_weights i t ^ 2) +
     (∑ j in Finset.range k, ∑ t in Finset.range d, p.col_weights j t ^ 2) +
     (if fit_intercepts then
        p.global_bias ^ 2 +
          (∑ i in Finset.range n, p.row_biases i ^ 2) +
          (∑ j in Finset.range k, p.col_biases j ^ 2)
      else 0))

/-- The constructor attributes of `MatrixFactorizer` (mf.py lines 309-334)
that the model graph and the training loop read. -/
structure Config where
  n_components : ℕ
  n_iter : ℕ
  batch_size : ℕ
  learning_rate : ℝ
  regularization_rate : ℝ
  alpha : ℝ
  implicit : Bool
  loss : String
  log_weights : Option Bool
  fit_intercepts : Bool
  warm_start : Bool
  optimizer : String
  random_state : Option ℕ

/-- The total training-step objective (mf.py lines 230-251): the weighted
data loss of the batch predictions against the targets, plus the L2 term. -/
noncomputable def costFn (cfg : Config) (n k d : ℕ) (p : Params)
    (rows cols : List ℕ) (vals : List ℝ) : ℝ :=
  dataLoss cfg.loss
      (List.zipWith (fun i j => predOne cfg.loss cfg.fit_intercepts d p i j) rows cols)
      (vals.map (fun v => targetOf cfg.implicit v))
      (vals.map (fun v => dataWeight cfg.implicit cfg.log_weights cfg.alpha v))
    + l2Term cfg.regularization_rate cfg.fit_intercepts n k d p rows cols

/-- The optimizer actually constructed (mf.py lines 253-256). -/
inductive OptAlg
  | adam
  | ftrl

/-- The dispatch on the `optimizer` string (mf.py lines 253-256): `Ftrl`
selects the Ftrl optimizer, every other string the Adam optimizer. -/
def chooseOpt (optimizer : String) : OptAlg :=
  if optimizer = "Ftrl" then OptAlg.ftrl else OptAlg.adam

/-- The TensorFlow library surface the code relies on, abstracted as
deterministic functions: the optimizer's slot initialization, its update
rule (a function of the objective being minimized, the learning rate and
its internal state), and the seeded normal initializer for `P` and `Q`.
`σ` is the optimizer's internal state (e.g. Adam's moments). -/
structure TFEnv (σ : Type) where
  optInitState : OptAlg → ℝ → σ
  optStep : OptAlg → ℝ → (Params → ℝ) → Params → σ → Params × σ
  randInitPQ : Option ℕ → ℕ → ℕ → ℕ → (ℕ → ℕ → ℝ) × (ℕ → ℕ → ℝ)

/-- The state of `MatrixFactorizer.TFModel`: the fixed shape `(n, k, d)`,
the current parameter values and the optimizer's internal state.  The
shape is fixed at graph construction; optimizer updates replace values
only. -/
structure TFModel (σ : Type) where
  n : ℕ
  k : ℕ
  d : ℕ
  params : Params
  opt : σ

/-- `TFModel.__init__` (mf.py lines 141-264): biases start at zero, the
latent matrices from the seeded normal initializer, the optimizer slots
fresh. -/
noncomputable def tfInit {σ : Type} (env : TFEnv σ) (cfg : Config)
    (n k : ℕ) : TFModel σ :=
  let pq := env.randInitPQ cfg.random_state n k cfg.n_components
  { n := n, k := k, d := cfg.n_components,
    params :=
      { global_bias := 0, row_biases := fun _ => 0, col_biases := fun _ => 0,
        row_weights := pq.1, col_weights := pq.2 },
    opt := env.optInitState (chooseOpt cfg.optimizer) cfg.learning_rate }

/-- `TFModel.train` (mf.py lines 267-274): one `sess.run` of the train step
and the loss.  Out-of-range lookups and mismatched batch lengths fail
(`none`); otherwise the pre-update loss is returned and the optimizer
updates the parameter values. -/
noncomputable def tfTrain {σ : Type} (env : TFEnv σ) (cfg : Config)
    (tm : TFModel σ) (rows cols : List ℕ) (vals : List ℝ) :
    Option (ℝ × TFModel σ) :=
  if rows.length = cols.length ∧ vals.length = rows.length ∧
      (∀ r ∈ rows, r < tm.n) ∧ (∀ c ∈ cols, c < tm.k) then
    let pu := env.optStep (chooseOpt cfg.optimizer) cfg.learning_rate
      (fun q => costFn cfg tm.n tm.k tm.d q rows cols vals) tm.params tm.opt
    some (costFn cfg tm.n tm.k tm.d tm.params rows cols vals,
          { tm with params := pu.1, opt := pu.2 })
  else none

/-- The mutable estimator state (mf.py lines 309-343): the stored shape
`self.shape` (minus the constant `n_components`), the lazily built model
`self._tf`, the loss history, and the `np.random` generator state. -/
structure MFState (σ : Type) where
  shape : Option (ℕ × ℕ)
  tf : Option (TFModel σ)
  history : List ℝ
  rng : ℕ

/-- `np.random.seed(random_state)` (mf.py line 336): a fixed integer seeds
the generator; `None` leaves it seeded from ambient entropy. -/
def seedOf (random_state : Option ℕ) (entropy : ℕ) : ℕ :=
  random_state.getD entropy

/-- `MatrixFactorizer.__init__` (mf.py lines 309-337): no shape, no model,
empty history, generator seeded. -/
def mfInit {σ : Type} (cfg : Config) (entropy : ℕ) : MFState σ :=
  { shape := none, tf := none, history := [], rng := seedOf cfg.random_state entropy }

/-- `MatrixFactorizer._fresh_session` (mf.py lines 340-343): drops the
model and the history; the stored shape and the generator state persist. -/
def freshSession {σ : Type} (s : MFState σ) : MFState σ :=
  { s with tf := none, history := [] }

/-- `MatrixFactorizer.init_with_shape` (mf.py lines 369-376): fix the
shape and build the model. -/
noncomputable def initWithShape {σ : Type} (env : TFEnv σ) (cfg : Config)
    (s : MFState σ) (n k : ℕ) : MFState σ :=
  { s with shape := some (n, k), tf := some (tfInit env cfg n k) }

/-- The training loop body of `partial_fit` (mf.py lines 408-411): sample a
batch, run one training step, append the loss.  A raised error (failed
lookup or failed step) aborts the remaining iterations, leaving the history
as accumulated (spec section 7); the boolean records whether the loop
completed. -/
noncomputable def trainLoop {σ : Type} (env : TFEnv σ) (cfg : Config)
    (m : SparseMatrix) : ℕ → MFState σ → MFState σ × Bool
  | 0, s => (s, true)
  | t + 1, s =>
    match s.shape, s.tf with
    | some sh, some tm =>
      let gb := getBatch sh cfg.batch_size m s.rng
      match gb.1 with
      | some rcv =>
        match tfTrain env cfg tm rcv.1 rcv.2.1 rcv.2.2 with
        | some ltm =>
          trainLoop env cfg m t
            { s with rng := gb.2, tf := some ltm.2,
                     history := s.history ++ [ltm.1] }
        | none => ({ s with rng := gb.2 }, false)
      | none => ({ s with rng := gb.2 }, false)
    | _, _ => (s, false)

/-- `MatrixFactorizer.partial_fit` (mf.py lines 394-413): build the model
from the matrix's shape when absent, then run `n_iter` training
iterations. -/
noncomputable def partialFit {σ : Type} (env : TFEnv σ) (cfg : Config)
    (m : SparseMatrix) (s : MFState σ) : MFState σ × Bool :=
  match s.tf with
  | none => trainLoop env cfg m cfg.n_iter (initWithShape env cfg s m.nrows m.ncols)
  | some _ => trainLoop env cfg m cfg.n_iter s

/-- `MatrixFactorizer.fit` (mf.py lines 379-391): reset the session unless
warm-starting, then `partial_fit`. -/
noncomputable def fit {σ : Type} (env : TFEnv σ) (cfg : Config)
    (m : SparseMatrix) (s : MFState σ) : MFState σ × Bool :=
  if cfg.warm_start then partialFit env cfg m s
  else partialFit env cfg m (freshSession s)

/-- `MatrixFactorizer.predict` (mf.py lines 416-429): delegates to the
model; with no model built, `self._tf.predict` fails on the `None`
attribute access, modelled by `none`. -/
noncomputable def mfPredict {σ : Type} (cfg : Config) (s : MFState σ)
    (rows cols : List ℕ) : Option (List ℝ) :=
  match s.tf with
  | none => none
  | some tm => predictBatch cfg.loss cfg.fit_intercepts tm.n tm.k tm.d tm.params rows cols

/-- A call in a fit/partial_fit sequence. -/
inductive FitCall
  | fitC (m : SparseMatrix)
  | partialC (m : SparseMatrix)

/-- Run a sequence of `fit`/`partial_fit` calls, as a client of the public
API would. -/
noncomputable def runCalls {σ : Type} (env : TFEnv σ) (cfg : Config) :
    List FitCall → MFState σ → MFState σ
  | [], s => s
  | c :: rest, s =>
    match c with
    | FitCall.fitC m => runCalls env cfg rest (fit env cfg m s).1
    | FitCall.partialC m => runCalls env cfg rest (partialFit env cfg m s).1

/-- `k` successive `partial_fit` calls on the same matrix. -/
noncomputable def iterPF {σ : Type} (env : TFEnv σ) (cfg : Config)
    (m : SparseMatrix) : ℕ → MFState σ → MFState σ
  | 0, s => s
  | j + 1, s => iterPF env cfg m j (partialFit env cfg m s).1

/-- A trivial instantiation of the abstracted TensorFlow surface, used to
evaluate the theorems at concrete inputs: the optimizer keeps the
parameters unchanged and the initializer returns zero matrices. -/
noncomputable def envU : TFEnv Unit :=
  { optInitState := fun _ _ => (),
    optStep := fun _ _ _ p o => (p, o),
    randInitPQ := fun _ _ _ _ => (fun _ _ => 0, fun _ _ => 0) }

/-- All-zero parameters on a 1 x 1 x 1 shape, for concrete evaluation. -/
noncomputable def pW : Params :=
  { global_bias := 0, row_biases := fun _ => 0, col_biases := fun _ => 0,
    row_weights := fun _ _ => 0, col_weights := fun _ _ => 0 }

/-- A small concrete configuration (squared loss, Adam, one iteration of
batch size one, seed 42). -/
noncomputable def cfgW : Config :=
  { n_components := 1, n_iter := 1, batch_size := 1, learning_rate := 1 / 100,
    regularization_rate := 1 / 50, alpha := 1, implicit := false,
    loss := "squared", log_weights := none, fit_intercepts := true,
    warm_start := false, optimizer := "Adam", random_state := some 42 }

/-- A 1 x 1 sparse matrix with no stored entries. -/
noncomputable def mW : SparseMatrix := sparse_matrix 1 1 []

/-- Parameters whose single latent row entry is 2 and whose other values
are 0, on a 1 x 1 x 1 shape: the concrete input refuting the claimed
regularization formula. -/
noncomputable def p3 : Params :=
  { global_bias := 0, row_biases := fun _ => 0, col_biases := fun _ => 0,
    row_weights := fun _ _ => 2, col_weights := fun _ _ => 0 }

/-- Configuration with regularization rate 1 and intercepts on, for the
regularization counterexample. -/
noncomputable def cfg3 : Config :=
  { n_components := 1, n_iter := 1, batch_size := 1, learning_rate := 1 / 100,
    regularization_rate := 1, alpha := 1, implicit := false,
    loss := "squared", log_weights := none, fit_intercepts := true,
    warm_start := false, optimizer := "Adam", random_state := some 0 }

/-- A configuration whose `loss` and `optimizer` strings are outside the
documented enumerations. -/
noncomputable def cfgBad : Config :=
  { n_components := 1, n_iter := 1, batch_size := 1, learning_rate := 1 / 100,
    regularization_rate := 1 / 50, alpha := 1, implicit := false,
    loss := "banana", log_weights := none, fit_intercepts := true,
    warm_start := false, optimizer := "SGD", random_state := some 0 }

/-- An estimator state whose shape was fixed at `(2, 1)` by
`init_with_shape`, for concrete evaluation. -/
noncomputable def sW : MFState Unit := initWithShape envU cfgW (mfInit cfgW 0) 2 1

/-- The invariant tying an estimator state to a training matrix: either no
model is built yet, or the model's shape is the stored shape and matches
the matrix. -/
def Good {σ : Type} (m : SparseMatrix) (s : MFState σ) : Prop :=
  s.tf = none ∨
    (s.shape = some (m.nrows, m.ncols) ∧
      ∃ tm, s.tf = some tm ∧ tm.n = m.nrows ∧ tm.k = m.ncols)

/-- Two configurations with `implicit = false` that agree on every stored
attribute except possibly `alpha` and `log_weights`. -/
def AgreeExceptAlpha (cfg1 cfg2 : Config) : Prop :=
  cfg1.implicit = false ∧ cfg2.implicit = false ∧
  cfg1.n_components = cfg2.n_components ∧ cfg1.n_iter = cfg2.n_iter ∧
  cfg1.batch_size = cfg2.batch_size ∧ cfg1.learning_rate = cfg2.learning_rate ∧
  cfg1.regularization_rate = cfg2.regularization_rate ∧
  cfg1.loss = cfg2.loss ∧ cfg1.fit_intercepts = cfg2.fit_intercepts ∧
  cfg1.warm_start = cfg2.warm_start ∧ cfg1.optimizer = cfg2.optimizer ∧
  cfg1.random_state = cfg2.random_state

theorem getD_zipWith (f : ℕ → ℕ → ℝ) :
    ∀ (as bs : List ℕ) (i : ℕ), i < as.length → as.length = bs.length →
      (List.zipWith f as bs).getD i 0 = f (as.getD i 0) (bs.getD i 0)
  | [], _, i, hi, _ => by simp at hi
  | _ :: _, [], _, _, hlen => by simp at hlen
  | a :: as, b :: bs, 0, _, _ => by simp
  | a :: as, b :: bs, i + 1, hi, hlen => by
    simp only [List.zipWith_cons_cons, List.getD_cons_succ]
    exact getD_zipWith f as bs i (by simpa using hi) (by simpa using hlen)

theorem predOne_eq (loss : String) (fit_intercepts : Bool) (d : ℕ)
    (p : Params) (i j : ℕ) :
    predOne loss fit_intercepts d p i j =
      (if loss = "logistic" then
        sigmoid (dotPQ d p i j +
          (if fit_intercepts then
            p.global_bias + p.row_biases i + p.col_biases j
          else 0))
      else
        dotPQ d p i j +
          (if fit_intercepts then
            p.global_bias + p.row_biases i + p.col_biases j
          else 0)) := by
  unfold predOne linearPredictor
  by_cases hl : loss = "logistic" <;> cases fit_intercepts <;> simp [hl]
  · exact congrArg sigmoid (by ring)
  · ring

/-- C1: the claim that every implicit-mode target is binary fails on the
code: the raw value `1/2` is non-negative, yet its training target
`clip(1/2, 0, 1) = 1/2` is neither 0 nor 1. -/
theorem c1_counterexample :
    (0 : ℝ) ≤ 1 / 2 ∧ targetOf true (1 / 2) ≠ 0 ∧ targetOf true (1 / 2) ≠ 1 := by
  have h : targetOf true (1 / 2 : ℝ) = 1 / 2 := by
    have hc : clip01 (1 / 2 : ℝ) = 1 / 2 := by
      unfold clip01
      rw [max_eq_left (by norm_num), min_eq_left (by norm_num)]
    simpa [targetOf] using hc
  refine ⟨by norm_num, ?_, ?_⟩ <;> rw [h] <;> norm_num

/-- C1 (amended): in implicit mode the target equals `clip(v, 0, 1)` —
which lies in `[0, 1]` and is binary when the raw value is `0` or at least
`1`, but not for fractional values in between — and the confidence weight
is `1 + alpha*v` (plain) or `1 + alpha*log(1+v)` (log), which is at least 1
for non-negative `alpha` and `v`. -/
theorem c1_theorem (lw : Bool) (alpha v : ℝ) (ha : 0 ≤ alpha) (hv : 0 ≤ v) :
    targetOf true v = clip01 v ∧
    dataWeight true (some lw) alpha v =
      (if lw then 1 + alpha * Real.log (1 + v) else 1 + alpha * v) ∧
    0 ≤ targetOf true v ∧ targetOf true v ≤ 1 ∧
    ((v = 0 ∨ 1 ≤ v) → targetOf true v = 0 ∨ targetOf true v = 1) ∧
    1 ≤ dataWeight true (some lw) alpha v := by
  have htarget : targetOf true v = clip01 v := by simp [targetOf]
  have hw : dataWeight true (some lw) alpha v =
      (if lw then 1 + alpha * Real.log (1 + v) else 1 + alpha * v) := by
    simp [dataWeight]
  refine ⟨htarget, hw, ?_, ?_, ?_, ?_⟩
  · rw [htarget]
    exact le_min (le_max_right v 0) zero_le_one
  · rw [htarget]
    exact min_le_right _ _
  · rintro (rfl | h1)
    · left
      rw [htarget]
      unfold clip01
      rw [max_self, min_eq_left zero_le_one]
    · right
      rw [htarget]
      unfold clip01
      rw [max_eq_left (le_trans zero_le_one h1), min_eq_right h1]
  · have hwf : dataWeight true (some false) alpha v = 1 + alpha * v := by
      simp [dataWeight]
    have hwt : dataWeight true (some true) alpha v =
        1 + alpha * Real.log (1 + v) := by
      simp [dataWeight]
    cases lw
    · rw [hwf]
      linarith [mul_nonneg ha hv]
    · rw [hwt]
      linarith [mul_nonneg ha (Real.log_nonneg (by linarith : (1 : ℝ) ≤ 1 + v))]

theorem c1_witness :
    (0 : ℝ) ≤ 1 ∧ (0 : ℝ) ≤ 2 ∧
    (targetOf true 2 = clip01 2 ∧
     dataWeight true (some true) 1 2 =
       (if true then 1 + 1 * Real.log (1 + 2) else 1 + 1 * 2) ∧
     0 ≤ targetOf true 2 ∧ targetOf true 2 ≤ 1 ∧
     (((2 : ℝ) = 0 ∨ (1 : ℝ) ≤ 2) → targetOf true 2 = 0 ∨ targetOf true 2 = 1) ∧
     1 ≤ dataWeight true (some true) 1 2) :=
  ⟨by norm_num, by norm_num, c1_theorem true 1 2 (by norm_num) (by norm_num)⟩

/-- C2: on equal-length in-range index arrays, `predict` returns one score
per pair: the dot product of the looked-up latent rows, plus
`mu + bi + bj` exactly when intercepts are fitted, passed through the
sigmoid exactly when `loss = 'logistic'` (and returned unchanged for the
squared loss). -/
theorem c2_theorem (loss : String) (fit_intercepts : Bool) (n k d : ℕ)
    (p : Params) (rows cols : List ℕ)
    (hlen : rows.length = cols.length)
    (hr : ∀ r ∈ rows, r < n) (hc : ∀ c ∈ cols, c < k) :
    ∃ out : List ℝ,
      predictBatch loss fit_intercepts n k d p rows cols = some out ∧
      out.length = rows.length ∧
      ∀ i, i < rows.length →
        out.getD i 0 =
          (if loss = "logistic" then
            sigmoid (dotPQ d p (rows.getD i 0) (cols.getD i 0) +
              (if fit_intercepts then
                p.global_bias + p.row_biases (rows.getD i 0) +
                  p.col_biases (cols.getD i 0)
              else 0))
          else
            dotPQ d p (rows.getD i 0) (cols.getD i 0) +
              (if fit_intercepts then
                p.global_bias + p.row_biases (rows.getD i 0) +
                  p.col_biases (cols.getD i 0)
              else 0)) := by
  refine ⟨List.zipWith (predOne loss fit_intercepts d p) rows cols, ?_, ?_, ?_⟩
  · unfold predictBatch
    rw [if_pos ⟨hlen, hr, hc⟩]
  · rw [List.length_zipWith, hlen, min_self]
  · intro i hi
    rw [getD_zipWith _ rows cols i hi hlen, predOne_eq]

theorem c2_witness :
    ([0] : List ℕ).length = ([0] : List ℕ).length ∧
    (∀ r ∈ ([0] : List ℕ), r < 1) ∧ (∀ c ∈ ([0] : List ℕ), c < 1) ∧
    (∃ out : List ℝ,
      predictBatch "squared" true 1 1 1 pW [0] [0] = some out ∧
      out.length = ([0] : List ℕ).length ∧
      ∀ i, i < ([0] : List ℕ).length →
        out.getD i 0 =
          (if "squared" = "logistic" then
            sigmoid (dotPQ 1 pW (([0] : List ℕ).getD i 0) (([0] : List ℕ).getD i 0) +
              (if true then
                pW.global_bias + pW.row_biases (([0] : List ℕ).getD i 0) +
                  pW.col_biases (([0] : List ℕ).getD i 0)
              else 0))
          else
            dotPQ 1 pW (([0] : List ℕ).getD i 0) (([0] : List ℕ).getD i 0) +
              (if true then
                pW.global_bias + pW.row_biases (([0] : List ℕ).getD i 0) +
                  pW.col_biases (([0] : List ℕ).getD i 0)
              else 0))) :=
  ⟨rfl, by decide, by decide,
    c2_theorem "squared" true 1 1 1 pW [0] [0] rfl (by decide) (by decide)⟩

/-- C3: the claimed regularization formula fails on the code.  With
regularization rate 1, a single latent entry of value 2 and everything else
zero, the training-step loss is `2` (the data loss `0` plus
`tf.nn.l2_loss`'s *half* sum of squares), while the claim's
"rate times the sum of squares of all entries plus bias squares" formula
added to the data loss gives `4`. -/
theorem c3_counterexample :
    costFn cfg3 1 1 1 p3 [0] [0] [0] ≠
      dataLoss cfg3.loss
          (List.zipWith (fun i j => predOne cfg3.loss cfg3.fit_intercepts 1 p3 i j)
            [0] [0])
          (([0] : List ℝ).map (fun v => targetOf cfg3.implicit v))
          (([0] : List ℝ).map
            (fun v => dataWeight cfg3.implicit cfg3.log_weights cfg3.alpha v)) +
        l2TermClaimed cfg3.regularization_rate cfg3.fit_intercepts 1 1 1 p3 := by
  have hdot : dotPQ 1 p3 0 0 = 0 := by
    simp [dotPQ, p3, Finset.sum_range_one]
  have hpred : predOne "squared" true 1 p3 0 0 = 0 := by
    unfold predOne linearPredictor
    rw [if_neg (by decide), if_pos rfl, hdot]
    norm_num [p3]
  have hnum : numPresent [(1 : ℝ)] = 1 := by
    simp [numPresent, List.filter]
  have hmse : dataLoss "squared" [(0 : ℝ)] [(0 : ℝ)] [(1 : ℝ)] = 0 := by
    simp [dataLoss, weightedMeanSq, hnum]
  have hl2 : l2Term 1 true 1 1 1 p3 [0] [0] = 2 := by
    norm_num [l2Term, halfSumSqMat, halfSumSqLookup, p3, Finset.sum_range_one]
  have hclaimed : l2TermClaimed 1 true 1 1 1 p3 = 4 := by
    norm_num [l2TermClaimed, p3, Finset.sum_range_one]
  have hcost : costFn cfg3 1 1 1 p3 [0] [0] [0] = 2 := by
    show dataLoss cfg3.loss _ _ _ +
      l2Term cfg3.regularization_rate cfg3.fit_intercepts 1 1 1 p3 [0] [0] = 2
    rw [show cfg3.loss = "squared" from rfl,
        show cfg3.fit_intercepts = true from rfl,
        show cfg3.regularization_rate = 1 from rfl]
    simp only [List.zipWith, List.map]
    rw [show targetOf cfg3.implicit 0 = 0 from rfl,
        show dataWeight cfg3.implicit cfg3.log_weights cfg3.alpha 0 = 1 from rfl,
        hpred, hmse, hl2]
    norm_num
  rw [hcost,
      show cfg3.loss = "squared" from rfl,
      show cfg3.fit_intercepts = true from rfl,
      show cfg3.regularization_rate = 1 from rfl]
  simp only [List.zipWith, List.map]
  rw [show targetOf cfg3.implicit 0 = 0 from rfl,
      show dataWeight cfg3.implicit cfg3.log_weights cfg3.alpha 0 = 1 from rfl,
      hpred, hmse, hclaimed]
  norm_num

/-- C3 (amended): the training-step loss is the data loss plus the
regularization term, where the term is `regularization_rate` times *half*
the sum of squares of all entries of `row_weights` and `col_weights`,
plus — when intercepts are fitted — *half* the sum of squares of the row
and column biases looked up at the batch's indices (with multiplicity; the
global bias is not regularized). -/
theorem c3_theorem (cfg : Config) (n k d : ℕ) (p : Params)
    (rows cols : List ℕ) (vals : List ℝ) :
    costFn cfg n k d p rows cols vals =
      dataLoss cfg.loss
          (List.zipWith (fun i j => predOne cfg.loss cfg.fit_intercepts d p i j)
            rows cols)
          (vals.map (fun v => targetOf cfg.implicit v))
          (vals.map (fun v => dataWeight cfg.implicit cfg.log_weights cfg.alpha v)) +
        cfg.regularization_rate *
          (((∑ i in Finset.range n, ∑ t in Finset.range d, p.row_weights i t ^ 2) +
              (∑ j in Finset.range k, ∑ t in Finset.range d, p.col_weights j t ^ 2)) / 2 +
            (if cfg.fit_intercepts then
              (((rows.map (fun i => p.row_biases i ^ 2)).sum) +
                ((cols.map (fun j => p.col_biases j ^ 2)).sum)) / 2
            else 0)) := by
  unfold costFn l2Term halfSumSqMat halfSumSqLookup
  cases hfi : cfg.fit_intercepts
  · rw [if_neg (by simp), if_neg (by simp)]
    ring
  · rw [if_pos rfl, if_pos rfl]
    ring

theorem randints_spec (bound : ℕ) (hb : 0 < bound) :
    ∀ (size s : ℕ), (randints bound size s).1.length = size ∧
      ∀ v ∈ (randints bound size s).1, v < bound := by
  intro size
  induction size with
  | zero => intro s; exact ⟨rfl, by simp [randints]⟩
  | succ t ih =>
    intro s
    have hstep : randints bound (t + 1) s =
        ((randint bound s).1 :: (randints bound t (randint bound s).2).1,
         (randints bound t (randint bound s).2).2) := rfl
    rw [hstep]
    refine ⟨by simp [(ih _).1], ?_⟩
    intro v hv
    rcases List.mem_cons.mp hv with h | h
    · rw [h]
      exact Nat.mod_lt _ hb
    · exact (ih _).2 v h

theorem getBatch_spec (n k bs : ℕ) (m : SparseMatrix) (s : ℕ)
    (hn : 0 < n) (hk : 0 < k) (hmn : m.nrows = n) (hmk : m.ncols = k) :
    getBatch (n, k) bs m s =
      (some ((randints n bs s).1, (randints k bs (randints n bs s).2).1,
        List.zipWith m.entry (randints n bs s).1
          (randints k bs (randints n bs s).2).1),
       (randints k bs (randints n bs s).2).2) := by
  have hr := randints_spec n hn bs s
  have hc := randints_spec k hk bs (randints n bs s).2
  have hlook : m.lookupMany (randints n bs s).1
      (randints k bs (randints n bs s).2).1 =
      some (List.zipWith m.entry (randints n bs s).1
        (randints k bs (randints n bs s).2).1) := by
    unfold SparseMatrix.lookupMany
    rw [if_pos]
    exact ⟨fun r hrr => hmn ▸ hr.2 r hrr, fun c hcc => hmk ▸ hc.2 c hcc⟩
  simp only [getBatch, hlook]

theorem getBatch_cases (n k bs : ℕ) (m : SparseMatrix) (s : ℕ) :
    (getBatch (n, k) bs m s).1 = none ∨
    (getBatch (n, k) bs m s).1 =
      some ((randints n bs s).1, (randints k bs (randints n bs s).2).1,
        List.zipWith m.entry (randints n bs s).1
          (randints k bs (randints n bs s).2).1) := by
  by_cases h : (∀ r ∈ (randints n bs s).1, r < m.nrows) ∧
      (∀ c ∈ (randints k bs (randints n bs s).2).1, c < m.ncols)
  · have hlook : m.lookupMany (randints n bs s).1
        (randints k bs (randints n bs s).2).1 =
        some (List.zipWith m.entry (randints n bs s).1
          (randints k bs (randints n bs s).2).1) := by
      unfold SparseMatrix.lookupMany
      rw [if_pos h]
    right
    simp only [getBatch, hlook]
  · have hlook : m.lookupMany (randints n bs s).1
        (randints k bs (randints n bs s).2).1 = none := by
      unfold SparseMatrix.lookupMany
      rw [if_neg h]
    left
    simp only [getBatch, hlook]

/-- C6: on a matrix matching the stored shape `(n, k)` with `n, k > 0`, the
batch sampler returns `batch_size` row indices in `[0, n)` and `batch_size`
column indices in `[0, k)` (drawn from the full index grid, not from the
nonzero entries), the value array is the elementwise lookup
`matrix[row_idx[i], col_idx[i]]`, no sampled index is out of range, and an
entry absent from the matrix's stored triples reads as 0. -/
theorem c6_theorem (n k bs : ℕ) (m : SparseMatrix) (s : ℕ)
    (hn : 0 < n) (hk : 0 < k) (hmn : m.nrows = n) (hmk : m.ncols = k) :
    (∃ rows cols vals s2,
      getBatch (n, k) bs m s = (some (rows, cols, vals), s2) ∧
      rows.length = bs ∧ cols.length = bs ∧ vals.length = bs ∧
      (∀ r ∈ rows, r < n) ∧ (∀ c ∈ cols, c < k) ∧
      (∀ i, i < bs → vals.getD i 0 = m.entry (rows.getD i 0) (cols.getD i 0))) ∧
    (∀ (triples : List (ℕ × ℕ × ℝ)) (i j : ℕ),
      (∀ t ∈ triples, ¬(t.1 = i ∧ t.2.1 = j)) →
      (sparse_matrix n k triples).entry i j = 0) := by
  have hr := randints_spec n hn bs s
  have hc := randints_spec k hk bs (randints n bs s).2
  constructor
  · refine ⟨(randints n bs s).1, (randints k bs (randints n bs s).2).1,
      List.zipWith m.entry (randints n bs s).1
        (randints k bs (randints n bs s).2).1,
      (randints k bs (randints n bs s).2).2,
      getBatch_spec n k bs m s hn hk hmn hmk,
      hr.1, hc.1, ?_, hr.2, hc.2, ?_⟩
    · rw [List.length_zipWith, hr.1, hc.1, min_self]
    · intro i hi
      exact getD_zipWith m.entry _ _ i (by rw [hr.1]; exact hi)
        (by rw [hr.1, hc.1])
  · intro triples i j habs
    have hfil : triples.filter (fun t => decide (t.1 = i ∧ t.2.1 = j)) = [] := by
      rw [List.filter_eq_nil_iff]
      intro t ht
      simpa using habs t ht
    show ((triples.filter (fun t => decide (t.1 = i ∧ t.2.1 = j))).map
      (fun t => t.2.2)).sum = 0
    rw [hfil]
    rfl

theorem c6_witness :
    0 < 1 ∧ 0 < 1 ∧ mW.nrows = 1 ∧ mW.ncols = 1 ∧
    ((∃ rows cols vals s2,
      getBatch (1, 1) 1 mW 0 = (some (rows, cols, vals), s2) ∧
      rows.length = 1 ∧ cols.length = 1 ∧ vals.length = 1 ∧
      (∀ r ∈ rows, r < 1) ∧ (∀ c ∈ cols, c < 1) ∧
      (∀ i, i < 1 → vals.getD i 0 = mW.entry (rows.getD i 0) (cols.getD i 0))) ∧
    (∀ (triples : List (ℕ × ℕ × ℝ)) (i j : ℕ),
      (∀ t ∈ triples, ¬(t.1 = i ∧ t.2.1 = j)) →
      (sparse_matrix 1 1 triples).entry i j = 0)) :=
  ⟨by decide, by decide, rfl, rfl,
    c6_theorem 1 1 1 mW 0 (by decide) (by decide) rfl rfl⟩

/-- C9: once a model exists, `partial_fit` does not re-initialize from the
matrix argument's shape; batch sampling draws its bounds from the stored
shape `(n, k)`: for any matrix argument every sampled row index is below
the stored `n` and every column index below the stored `k`, the value
lookup indexes that matrix at the sampled positions, and a matrix smaller
than the stored shape makes the lookup fail (scipy `IndexError`), as shown
concretely by a stored shape `(2, 1)` over a 1 x 1 matrix. -/
theorem c9_theorem {σ : Type} (env : TFEnv σ) (cfg : Config)
    (s : MFState σ) (m : SparseMatrix) (n k : ℕ) (tm : TFModel σ)
    (hshape : s.shape = some (n, k)) (htf : s.tf = some tm)
    (hn : 0 < n) (hk : 0 < k) :
    partialFit env cfg m s = trainLoop env cfg m cfg.n_iter s ∧
    s.shape = some (n, k) ∧
    (∀ m' : SparseMatrix,
      (∀ r ∈ (randints n cfg.batch_size s.rng).1, r < n) ∧
      (∀ c ∈ (randints k cfg.batch_size
          (randints n cfg.batch_size s.rng).2).1, c < k) ∧
      ((getBatch (n, k) cfg.batch_size m' s.rng).1 = none ∨
        (getBatch (n, k) cfg.batch_size m' s.rng).1 =
          some ((randints n cfg.batch_size s.rng).1,
            (randints k cfg.batch_size (randints n cfg.batch_size s.rng).2).1,
            List.zipWith m'.entry (randints n cfg.batch_size s.rng).1
              (randints k cfg.batch_size
                (randints n cfg.batch_size s.rng).2).1))) ∧
    (getBatch (2, 1) 1 (sparse_matrix 1 1 []) 0).1 = none := by
  refine ⟨?_, hshape, ?_, rfl⟩
  · simp only [partialFit, htf]
  · intro m'
    exact ⟨(randints_spec n hn cfg.batch_size s.rng).2,
      (randints_spec k hk cfg.batch_size (randints n cfg.batch_size s.rng).2).2,
      getBatch_cases n k cfg.batch_size m' s.rng⟩

theorem c9_witness :
    sW.shape = some (2, 1) ∧ sW.tf = some (tfInit envU cfgW 2 1) ∧
    0 < 2 ∧ 0 < 1 ∧
    (partialFit envU cfgW mW sW = trainLoop envU cfgW mW cfgW.n_iter sW ∧
    sW.shape = some (2, 1) ∧
    (∀ m' : SparseMatrix,
      (∀ r ∈ (randints 2 cfgW.batch_size sW.rng).1, r < 2) ∧
      (∀ c ∈ (randints 1 cfgW.batch_size
          (randints 2 cfgW.batch_size sW.rng).2).1, c < 1) ∧
      ((getBatch (2, 1) cfgW.batch_size m' sW.rng).1 = none ∨
        (getBatch (2, 1) cfgW.batch_size m' sW.rng).1 =
          some ((randints 2 cfgW.batch_size sW.rng).1,
            (randints 1 cfgW.batch_size (randints 2 cfgW.batch_size sW.rng).2).1,
            List.zipWith m'.entry (randints 2 cfgW.batch_size sW.rng).1
              (randints 1 cfgW.batch_size
                (randints 2 cfgW.batch_size sW.rng).2).1))) ∧
    (getBatch (2, 1) 1 (sparse_matrix 1 1 []) 0).1 = none) :=
  ⟨rfl, rfl, by decide, by decide,
    c9_theorem envU cfgW sW mW 2 1 (tfInit envU cfgW 2 1) rfl rfl
      (by decide) (by decide)⟩

theorem tfTrain_success {σ : Type} (env : TFEnv σ) (cfg : Config)
    (tm : TFModel σ) (m : SparseMatrix) (s : ℕ)
    (hn : 0 < m.nrows) (hk : 0 < m.ncols)
    (htn : tm.n = m.nrows) (htk : tm.k = m.ncols) :
    ∃ c tm2,
      tfTrain env cfg tm (randints m.nrows cfg.batch_size s).1
        (randints m.ncols cfg.batch_size (randints m.nrows cfg.batch_size s).2).1
        (List.zipWith m.entry (randints m.nrows cfg.batch_size s).1
          (randints m.ncols cfg.batch_size
            (randints m.nrows cfg.batch_size s).2).1) = some (c, tm2) ∧
      tm2.n = tm.n ∧ tm2.k = tm.k := by
  have hr := randints_spec m.nrows hn cfg.batch_size s
  have hc := randints_spec m.ncols hk cfg.batch_size
    (randints m.nrows cfg.batch_size s).2
  have hcond : (randints m.nrows cfg.batch_size s).1.length =
      (randints m.ncols cfg.batch_size
        (randints m.nrows cfg.batch_size s).2).1.length ∧
      (List.zipWith m.entry (randints m.nrows cfg.batch_size s).1
        (randints m.ncols cfg.batch_size
          (randints m.nrows cfg.batch_size s).2).1).length =
        (randints m.nrows cfg.batch_size s).1.length ∧
      (∀ r ∈ (randints m.nrows cfg.batch_size s).1, r < tm.n) ∧
      (∀ c ∈ (randints m.ncols cfg.batch_size
        (randints m.nrows cfg.batch_size s).2).1, c < tm.k) := by
    refine ⟨by rw [hr.1, hc.1], ?_, ?_, ?_⟩
    · rw [List.length_zipWith, hr.1, hc.1, min_self]
    · rw [htn]
      exact hr.2
    · rw [htk]
      exact hc.2
  unfold tfTrain
  rw [if_pos hcond]
  exact ⟨_, _, rfl, rfl, rfl⟩

theorem trainLoop_spec {σ : Type} (env : TFEnv σ) (cfg : Config)
    (m : SparseMatrix) (hn : 0 < m.nrows) (hk : 0 < m.ncols) :
    ∀ (t : ℕ) (s : MFState σ) (tm : TFModel σ),
      s.shape = some (m.nrows, m.ncols) → s.tf = some tm →
      tm.n = m.nrows → tm.k = m.ncols →
      ∃ s2 tm2, trainLoop env cfg m t s = (s2, true) ∧
        s2.history.length = s.history.length + t ∧
        s2.shape = some (m.nrows, m.ncols) ∧ s2.tf = some tm2 ∧
        tm2.n = m.nrows ∧ tm2.k = m.ncols := by
  intro t
  induction t with
  | zero =>
    intro s tm hs htf htn htk
    exact ⟨s, tm, rfl, by simp [trainLoop], hs, htf, htn, htk⟩
  | succ t ih =>
    intro s tm hs htf htn htk
    have hgb := getBatch_spec m.nrows m.ncols cfg.batch_size m s.rng hn hk rfl rfl
    rcases tfTrain_success env cfg tm m s.rng hn hk htn htk with
      ⟨c, tmNew, htr, htn2, htk2⟩
    have hstep : trainLoop env cfg m (t + 1) s =
        trainLoop env cfg m t
          { s with
            rng := (randints m.ncols cfg.batch_size
              (randints m.nrows cfg.batch_size s.rng).2).2,
            tf := some tmNew,
            history := s.history ++ [c] } := by
      simp only [trainLoop, hs, htf, hgb, htr]
    rcases ih { s with
        rng := (randints m.ncols cfg.batch_size
          (randints m.nrows cfg.batch_size s.rng).2).2,
        tf := some tmNew,
        history := s.history ++ [c] } tmNew hs rfl (htn2.trans htn)
        (htk2.trans htk) with ⟨s2, tm2, heq, hlen, hsh, htf2, hn2, hk2⟩
    refine ⟨s2, tm2, ?_, ?_, hsh, htf2, hn2, hk2⟩
    · rw [hstep, heq]
    · rw [hlen]
      simp only [List.length_append, List.length_cons, List.length_nil]
      omega

theorem partialFit_spec {σ : Type} (env : TFEnv σ) (cfg : Config)
    (m : SparseMatrix) (hn : 0 < m.nrows) (hk : 0 < m.ncols)
    (s : MFState σ) (hg : Good m s) :
    ∃ s2 tm2, partialFit env cfg m s = (s2, true) ∧
      s2.history.length = s.history.length + cfg.n_iter ∧
      s2.shape = some (m.nrows, m.ncols) ∧ s2.tf = some tm2 ∧
      tm2.n = m.nrows ∧ tm2.k = m.ncols := by
  rcases hg with hnone | ⟨hsh, tm, htf, htn, htk⟩
  · have hpf : partialFit env cfg m s =
        trainLoop env cfg m cfg.n_iter (initWithShape env cfg s m.nrows m.ncols) := by
      simp only [partialFit, hnone]
    rcases trainLoop_spec env cfg m hn hk cfg.n_iter
        (initWithShape env cfg s m.nrows m.ncols) (tfInit env cfg m.nrows m.ncols)
        rfl rfl rfl rfl with ⟨s2, tm2, heq, hlen, hsh2, htf2, hn2, hk2⟩
    exact ⟨s2, tm2, by rw [hpf, heq], hlen, hsh2, htf2, hn2, hk2⟩
  · have hpf : partialFit env cfg m s = trainLoop env cfg m cfg.n_iter s := by
      simp only [partialFit, htf]
    rcases trainLoop_spec env cfg m hn hk cfg.n_iter s tm hsh htf htn htk with
      ⟨s2, tm2, heq, hlen, hsh2, htf2, hn2, hk2⟩
    exact ⟨s2, tm2, by rw [hpf, heq], hlen, hsh2, htf2, hn2, hk2⟩

theorem iterPF_len {σ : Type} (env : TFEnv σ) (cfg : Config)
    (m : SparseMatrix) (hn : 0 < m.nrows) (hk : 0 < m.ncols) :
    ∀ (kc : ℕ) (s : MFState σ), Good m s →
      (iterPF env cfg m kc s).history.length =
        s.history.length + kc * cfg.n_iter := by
  intro kc
  induction kc with
  | zero => intro s _; simp [iterPF]
  | succ t ih =>
    intro s hg
    rcases partialFit_spec env cfg m hn hk s hg with
      ⟨s2, tm2, heq, hlen, hsh2, htf2, hn2, hk2⟩
    have hrec : iterPF env cfg m (t + 1) s = iterPF env cfg m t s2 := by
      simp only [iterPF, heq]
    rw [hrec, ih s2 (Or.inr ⟨hsh2, tm2, htf2, hn2, hk2⟩), hlen,
      Nat.succ_mul]
    omega

/-- C4: the history grows by exactly one loss per completed training step:
starting from a fresh estimator, `k` successive `partial_fit` calls on a
matrix of positive shape leave the history at length `k * n_iter`; and a
`fit` call with `warm_start = false` first resets the history, so from any
prior state the history afterwards has length exactly `n_iter`. -/
theorem c4_theorem {σ : Type} (env : TFEnv σ) (cfg : Config)
    (m : SparseMatrix) (e : ℕ) (kc : ℕ) (s : MFState σ)
    (hn : 0 < m.nrows) (hk : 0 < m.ncols) (hw : cfg.warm_start = false) :
    (iterPF env cfg m kc (mfInit cfg e)).history.length = kc * cfg.n_iter ∧
    ((fit env cfg m s).1).history.length = cfg.n_iter := by
  constructor
  · have h := iterPF_len env cfg m hn hk kc (mfInit cfg e) (Or.inl rfl)
    simpa [mfInit] using h
  · have hfs : Good m (freshSession s) := Or.inl rfl
    rcases partialFit_spec env cfg m hn hk (freshSession s) hfs with
      ⟨s2, tm2, heq, hlen, _, _, _, _⟩
    have hfit : fit env cfg m s = partialFit env cfg m (freshSession s) := by
      unfold fit
      rw [hw]
      simp
    rw [hfit, heq]
    simpa [freshSession] using hlen

theorem c4_witness :
    0 < mW.nrows ∧ 0 < mW.ncols ∧ cfgW.warm_start = false ∧
    ((iterPF envU cfgW mW 2 (mfInit cfgW 0)).history.length = 2 * cfgW.n_iter ∧
     ((fit envU cfgW mW sW).1).history.length = cfgW.n_iter) :=
  ⟨by decide, by decide, rfl,
    c4_theorem envU cfgW mW 0 2 sW (by decide) (by decide) rfl⟩

/-- C5: with a fixed integer `random_state`, training is deterministic:
the estimator state after any sequence of `fit`/`partial_fit` calls is a
function of the configuration and the call sequence alone — two runs
constructed under different ambient entropy but the same seed go through
identical states and produce identical loss histories. -/
theorem c5_theorem {σ : Type} (env : TFEnv σ) (cfg : Config) (seed : ℕ)
    (e1 e2 : ℕ) (ops : List FitCall) (hseed : cfg.random_state = some seed) :
    runCalls env cfg ops (mfInit cfg e1) = runCalls env cfg ops (mfInit cfg e2) ∧
    (runCalls env cfg ops (mfInit cfg e1)).history =
      (runCalls env cfg ops (mfInit cfg e2)).history := by
  have hinit : (mfInit cfg e1 : MFState σ) = mfInit cfg e2 := by
    simp [mfInit, seedOf, hseed]
  rw [hinit]
  exact ⟨rfl, rfl⟩

theorem c5_witness :
    cfgW.random_state = some 42 ∧
    (runCalls envU cfgW [FitCall.partialC mW] (mfInit cfgW 0) =
       runCalls envU cfgW [FitCall.partialC mW] (mfInit cfgW 1) ∧
     (runCalls envU cfgW [FitCall.partialC mW] (mfInit cfgW 0)).history =
       (runCalls envU cfgW [FitCall.partialC mW] (mfInit cfgW 1)).history) :=
  ⟨rfl, c5_theorem envU cfgW 42 0 1 [FitCall.partialC mW] rfl⟩

/-- C8: before any shape-fixing event the estimator has no model
(`self._tf is None`), and `predict` fails (the `None` attribute access,
the spec's NotInitializedError) instead of returning default values: on a
freshly constructed state, and on any state whose model is absent,
`predict` returns no scores. -/
theorem c8_theorem {σ : Type} (cfg : Config) (e : ℕ) (rows cols : List ℕ)
    (s : MFState σ) (h : s.tf = none) :
    mfPredict cfg (mfInit cfg e : MFState σ) rows cols = none ∧
    mfPredict cfg s rows cols = none := by
  constructor
  · rfl
  · simp [mfPredict, h]

theorem c8_witness :
    (freshSession sW).tf = none ∧
    (mfPredict cfgW (mfInit cfgW 0 : MFState Unit) [0] [0] = none ∧
     mfPredict cfgW (freshSession sW) [0] [0] = none) :=
  ⟨rfl, c8_theorem cfgW 0 [0] [0] (freshSession sW) rfl⟩

/-- C7: the claim that invalid `loss`/`optimizer` values fail fast is
false on the code: no validation exists anywhere.  With `loss = 'banana'`
and `optimizer = 'SGD'`, construction and a full first `fit` call succeed
(the completion flag is `true`, no configuration error), the optimizer
dispatch silently selects Adam, and prediction and data loss behave
exactly as with `loss = 'squared'`. -/
theorem c7_counterexample :
    (fit envU cfgBad mW (mfInit cfgBad 0)).2 = true ∧
    chooseOpt cfgBad.optimizer = OptAlg.adam ∧
    predOne cfgBad.loss true 1 pW 0 0 = predOne "squared" true 1 pW 0 0 ∧
    dataLoss cfgBad.loss [0] [0] [1] = dataLoss "squared" [0] [0] [1] := by
  refine ⟨?_, rfl, rfl, rfl⟩
  rcases partialFit_spec envU cfgBad mW (by decide) (by decide)
      (freshSession (mfInit cfgBad 0)) (Or.inl rfl) with ⟨s2, tm2, heq, _⟩
  have hfit : fit envU cfgBad mW (mfInit cfgBad 0) =
      partialFit envU cfgBad mW (freshSession (mfInit cfgBad 0)) := by
    unfold fit
    rw [show cfgBad.warm_start = false from rfl]
    simp
  rw [hfit, heq]

/-- C7 (amended): the code never validates the enumerations and never
raises a configuration error; instead any `loss` other than `'logistic'`
is treated exactly as `'squared'` (linear predictions, mean-squared-error
data loss) and any `optimizer` other than `'Ftrl'` selects the Adam
update. -/
theorem c7_theorem (loss opt : String) (h1 : loss ≠ "logistic")
    (h2 : opt ≠ "Ftrl") (fit_intercepts : Bool) (d : ℕ) (p : Params)
    (i j : ℕ) (preds targets ws : List ℝ) :
    chooseOpt opt = OptAlg.adam ∧
    predOne loss fit_intercepts d p i j =
      predOne "squared" fit_intercepts d p i j ∧
    dataLoss loss preds targets ws = dataLoss "squared" preds targets ws := by
  refine ⟨?_, ?_, ?_⟩
  · unfold chooseOpt
    rw [if_neg h2]
  · unfold predOne
    rw [if_neg h1, if_neg (by decide)]
  · unfold dataLoss
    rw [if_neg h1, if_neg (by decide)]

theorem c7_witness :
    ("banana" ≠ "logistic") ∧ ("SGD" ≠ "Ftrl") ∧
    (chooseOpt "SGD" = OptAlg.adam ∧
     predOne "banana" true 1 pW 0 0 = predOne "squared" true 1 pW 0 0 ∧
     dataLoss "banana" [0] [0] [1] = dataLoss "squared" [0] [0] [1]) :=
  ⟨by decide, by decide,
    c7_theorem "banana" "SGD" (by decide) (by decide) true 1 pW 0 0 [0] [0] [1]⟩

theorem costFn_congr (cfg1 cfg2 : Config) (h : AgreeExceptAlpha cfg1 cfg2)
    (n k d : ℕ) (p : Params) (rows cols : List ℕ) (vals : List ℝ) :
    costFn cfg1 n k d p rows cols vals = costFn cfg2 n k d p rows cols vals := by
  obtain ⟨himp1, himp2, _, _, _, _, hrr, hloss, hfi, _, _, _⟩ := h
  unfold costFn
  rw [himp1, himp2, hloss, hfi, hrr]
  simp [dataWeight, targetOf]

theorem tfTrain_congr {σ : Type} (env : TFEnv σ) (cfg1 cfg2 : Config)
    (h : AgreeExceptAlpha cfg1 cfg2) (tm : TFModel σ)
    (rows cols : List ℕ) (vals : List ℝ) :
    tfTrain env cfg1 tm rows cols vals = tfTrain env cfg2 tm rows cols vals := by
  have hfun : (fun q => costFn cfg1 tm.n tm.k tm.d q rows cols vals) =
      (fun q => costFn cfg2 tm.n tm.k tm.d q rows cols vals) :=
    funext fun q => costFn_congr cfg1 cfg2 h tm.n tm.k tm.d q rows cols vals
  have hlr : cfg1.learning_rate = cfg2.learning_rate := h.2.2.2.2.2.1
  have hopt : cfg1.optimizer = cfg2.optimizer := h.2.2.2.2.2.2.2.2.2.2.1
  unfold tfTrain
  rw [hopt, hlr, hfun,
    costFn_congr cfg1 cfg2 h tm.n tm.k tm.d tm.params rows cols vals]

theorem trainLoop_congr {σ : Type} (env : TFEnv σ) (cfg1 cfg2 : Config)
    (h : AgreeExceptAlpha cfg1 cfg2) (m : SparseMatrix) :
    ∀ (t : ℕ) (s : MFState σ),
      trainLoop env cfg1 m t s = trainLoop env cfg2 m t s := by
  intro t
  induction t with
  | zero => intro s; rfl
  | succ t ih =>
    intro s
    have hbs : cfg1.batch_size = cfg2.batch_size := h.2.2.2.2.1
    cases hs : s.shape with
    | none => simp only [trainLoop, hs]
    | some sh =>
      cases htf : s.tf with
      | none => simp only [trainLoop, hs, htf]
      | some tm =>
        simp only [trainLoop, hs, htf, hbs]
        cases hgb : (getBatch sh cfg2.batch_size m s.rng).1 with
        | none => simp only [hgb]
        | some rcv =>
          simp only [hgb]
          rw [tfTrain_congr env cfg1 cfg2 h tm rcv.1 rcv.2.1 rcv.2.2]
          cases htr : tfTrain env cfg2 tm rcv.1 rcv.2.1 rcv.2.2 with
          | none => simp only [htr]
          | some ltm =>
            simp only [htr]
            exact ih _

theorem partialFit_congr {σ : Type} (env : TFEnv σ) (cfg1 cfg2 : Config)
    (h : AgreeExceptAlpha cfg1 cfg2) (m : SparseMatrix) (s : MFState σ) :
    partialFit env cfg1 m s = partialFit env cfg2 m s := by
  have hni : cfg1.n_iter = cfg2.n_iter := h.2.2.2.1
  have hnc : cfg1.n_components = cfg2.n_components := h.2.2.1
  have hrs : cfg1.random_state = cfg2.random_state := h.2.2.2.2.2.2.2.2.2.2.2
  have hopt : cfg1.optimizer = cfg2.optimizer := h.2.2.2.2.2.2.2.2.2.2.1
  have hlr : cfg1.learning_rate = cfg2.learning_rate := h.2.2.2.2.2.1
  have htfi : ∀ n k, tfInit env cfg1 n k = tfInit env cfg2 n k := by
    intro n k
    unfold tfInit
    rw [hnc, hrs, hopt, hlr]
  cases htf : s.tf with
  | none =>
    simp only [partialFit, htf, initWithShape, htfi, hni,
      trainLoop_congr env cfg1 cfg2 h m]
  | some tm =>
    simp only [partialFit, htf, hni, trainLoop_congr env cfg1 cfg2 h m]

theorem fit_congr {σ : Type} (env : TFEnv σ) (cfg1 cfg2 : Config)
    (h : AgreeExceptAlpha cfg1 cfg2) (m : SparseMatrix) (s : MFState σ) :
    fit env cfg1 m s = fit env cfg2 m s := by
  have hws : cfg1.warm_start = cfg2.warm_start := h.2.2.2.2.2.2.2.2.2.1
  unfold fit
  rw [hws, partialFit_congr env cfg1 cfg2 h m s,
    partialFit_congr env cfg1 cfg2 h m (freshSession s)]

theorem runCalls_congr {σ : Type} (env : TFEnv σ) (cfg1 cfg2 : Config)
    (h : AgreeExceptAlpha cfg1 cfg2) :
    ∀ (ops : List FitCall) (s : MFState σ),
      runCalls env cfg1 ops s = runCalls env cfg2 ops s := by
  intro ops
  induction ops with
  | nil => intro s; rfl
  | cons c rest ih =>
    intro s
    cases c with
    | fitC m =>
      simp only [runCalls, fit_congr env cfg1 cfg2 h m s]
      exact ih _
    | partialC m =>
      simp only [runCalls, partialFit_congr env cfg1 cfg2 h m s]
      exact ih _

/-- C10: with `implicit = false`, `alpha` and `log_weights` are
unobservable: a configuration differing only in those two attributes runs
through identical estimator states on any sequence of `fit`/`partial_fit`
calls (in particular identical loss histories) and produces identical
predictions, because every entry's weight is the constant 1 and the target
is the raw value. -/
theorem c10_theorem {σ : Type} (env : TFEnv σ) (cfg : Config) (a : ℝ)
    (lw : Option Bool) (himp : cfg.implicit = false) (e : ℕ)
    (ops : List FitCall) (rows cols : List ℕ) :
    runCalls env { cfg with alpha := a, log_weights := lw } ops
        (mfInit { cfg with alpha := a, log_weights := lw } e) =
      runCalls env cfg ops (mfInit cfg e) ∧
    (runCalls env { cfg with alpha := a, log_weights := lw } ops
        (mfInit { cfg with alpha := a, log_weights := lw } e)).history =
      (runCalls env cfg ops (mfInit cfg e)).history ∧
    mfPredict { cfg with alpha := a, log_weights := lw }
        (runCalls env { cfg with alpha := a, log_weights := lw } ops
          (mfInit { cfg with alpha := a, log_weights := lw } e)) rows cols =
      mfPredict cfg (runCalls env cfg ops (mfInit cfg e)) rows cols := by
  have hagree : AgreeExceptAlpha { cfg with alpha := a, log_weights := lw } cfg :=
    ⟨himp, himp, rfl, rfl, rfl, rfl, rfl, rfl, rfl, rfl, rfl, rfl⟩
  have hinit : (mfInit { cfg with alpha := a, log_weights := lw } e : MFState σ) =
      mfInit cfg e := rfl
  have hrun : runCalls env { cfg with alpha := a, log_weights := lw } ops
      (mfInit { cfg with alpha := a, log_weights := lw } e) =
      runCalls env cfg ops (mfInit cfg e) := by
    rw [hinit]
    exact runCalls_congr env _ cfg hagree ops (mfInit cfg e)
  refine ⟨hrun, by rw [hrun], ?_⟩
  rw [hrun]
  rfl

theorem c10_witness :
    cfgW.implicit = false ∧
    (runCalls envU { cfgW with alpha := 2, log_weights := some true }
        [FitCall.fitC mW]
        (mfInit { cfgW with alpha := 2, log_weights := some true } 0) =
      runCalls envU cfgW [FitCall.fitC mW] (mfInit cfgW 0) ∧
    (runCalls envU { cfgW with alpha := 2, log_weights := some true }
        [FitCall.fitC mW]
        (mfInit { cfgW with alpha := 2, log_weights := some true } 0)).history =
      (runCalls envU cfgW [FitCall.fitC mW] (mfInit cfgW 0)).history ∧
    mfPredict { cfgW with alpha := 2, log_weights := some true }
        (runCalls envU { cfgW with alpha := 2, log_weights := some true }
          [FitCall.fitC mW]
          (mfInit { cfgW with alpha := 2, log_weights := some true } 0)) [0] [0] =
      mfPredict cfgW (runCalls envU cfgW [FitCall.fitC mW] (mfInit cfgW 0)) [0] [0]) :=
  ⟨rfl, c10_theorem envU cfgW 2 (some true) rfl 0 [FitCall.fitC mW] [0] [0]⟩

end Tfmf
